import Mathlib

/-!
# Verification of `stdout_example.py` (terminal animation demo runner)

Shallow embedding of the single-file Python program `src/stdout_example.py`.
Each demo routine is modelled as the finite list of output events it performs;
`sys.stdout.write` / `print` calls become constructors of an event type.
The progress-bar demo computes its widths with Python floats (IEEE binary64),
so the embedding carries an exact model of round-to-nearest-even double
rounding over dyadic rationals, applied to the finitely many inputs the
demo uses.
-/

namespace StdoutExample

/-- Output events on the console stream.
`write s` is `ConsoleAnimator.write_with_flush(s)` / a raw `sys.stdout.write`;
`printLn s` is Python `print(s)` (writes `s` then a newline);
`clearLine` is `ConsoleAnimator.clear_line()`;
`cursorUp` / `cursorDown` are the ANSI cursor moves;
`joined` marks the return of the thread join call in the threaded demo. -/
inductive Ev where
  | write (s : String)
  | printLn (s : String)
  | clearLine
  | cursorUp (n : Nat)
  | cursorDown (n : Nat)
  | joined
  deriving DecidableEq, Repr

/-- The string that `ConsoleAnimator.clear_line` writes:
`'\r' + ' ' * 80 + '\r'`. -/
def clear_line_str : String := "\r" ++ String.mk (List.replicate 80 ' ') ++ "\r"

/-- Python `range(start, 0, -1)` restricted to the descending unit-step form
used by the source (`range(10, 0, -1)` and `range(len(message), 0, -1)`):
the list `start, start-1, ..., stop+1`. -/
def rangeDown : Nat → Nat → List Nat
  | 0, _ => []
  | s + 1, t => if t < s + 1 then (s + 1) :: rangeDown s t else []

/-! ## IEEE binary64 model

Python floats are IEEE doubles.  `fround0 n d` rounds the nonnegative
rational `n / d` to 53 significand bits with round-to-nearest,
ties-to-even — exactly the rounding CPython performs for `int / int` true
division and for float multiplication.  Every value the progress-bar demo
produces is nonnegative and below `2^52`, so only upward scaling is needed
and the rounded result is an exact dyadic rational, returned as a pair
`(m, k)` denoting `m / 2^k`.  The scaling loop uses fuel; 120 steps cover
every magnitude the demo produces (all its values are at least `1/50^2`). -/

/-- Scale the fraction `n / d` by powers of two until it lies in
`[2^52, 2^53)` (assuming `0 < n / d < 2^52`): returns the scaled numerator
`n * 2^k` and the shift `k`. -/
def upLoop : Nat → Nat → Nat → Nat × Nat
  | 0, n, _ => (n, 0)
  | f + 1, n, d =>
    if n < 4503599627370496 * d then
      let p := upLoop f (2 * n) d
      (p.1, p.2 + 1)
    else (n, 0)

/-- Round the fraction `n / d` (with `0 < n / d < 2^52`, `0 < d`) to the
nearest IEEE binary64 value, ties to even: the result is `m / 2^k` for the
returned pair `(m, k)`. -/
def froundPos (n d : Nat) : Nat × Nat :=
  let p := upLoop 120 n d
  let m0 := p.1 / d
  let rnum := p.1 - m0 * d
  let m :=
    if 2 * rnum < d then m0
    else if d < 2 * rnum then m0 + 1
    else if m0 % 2 = 0 then m0 else m0 + 1
  (m, p.2)

/-- Round the nonnegative fraction `n / d` to the nearest IEEE binary64
value (exact for zero). -/
def fround0 (n d : Nat) : Nat × Nat :=
  if n = 0 then (0, 0) else froundPos n d

/-! ## Progress bar demo (`demo_progress_bar`)

Source:
```
total: int = 50
bar_width: int = 30
for i in range(total + 1):
    progress = i / total
    filled_width = int(bar_width * progress)
    bar = "█" * filled_width + "░" * (bar_width - filled_width)
    percentage = int(progress * 100)
    write(f"\rProgress: [{bar}] {percentage}% ({i}/{total})")
```
-/

def total : Nat := 50

def bar_width : Nat := 30

/-- `progress = i / total`: true division of two Python ints, i.e. the exact
quotient correctly rounded to a double, represented as the dyadic pair
`(m, k)` with value `m / 2^k`. -/
def progress (i : Nat) : Nat × Nat := fround0 i total

/-- `filled_width = int(bar_width * progress)`: float multiplication
(correctly rounded — the int operand converts exactly) then truncation
toward zero (= floor, values here being nonnegative). -/
def filled_width (i : Nat) : Nat :=
  let p := progress i
  let q := fround0 (bar_width * p.1) (2 ^ p.2)
  q.1 / 2 ^ q.2

/-- `percentage = int(progress * 100)`. -/
def percentage (i : Nat) : Nat :=
  let p := progress i
  let q := fround0 (p.1 * 100) (2 ^ p.2)
  q.1 / 2 ^ q.2

/-- Number of `"░"` glyphs rendered: Python `"░" * (bar_width - filled_width)`
yields the empty string for a negative repeat count, so the rendered count is
the integer difference clamped at zero. -/
def empty_width (i : Nat) : Nat := ((bar_width : ℤ) - (filled_width i : ℤ)).toNat

/-- The bar string of iteration `i`. -/
def bar (i : Nat) : String :=
  String.mk (List.replicate (filled_width i) '█' ++ List.replicate (empty_width i) '░')

/-- The write of iteration `i` of the progress-bar demo. -/
def progressWrite (i : Nat) : Ev :=
  Ev.write ("\rProgress: [" ++ bar i ++ "] " ++ toString (percentage i) ++ "% (" ++
    toString i ++ "/" ++ toString total ++ ")")

/-- Trace of `demo_progress_bar`. -/
def demo_progress_bar : List Ev :=
  Ev.printLn "\n=== Progress Bar Demo ===" ::
  Ev.printLn "Processing with progress bar:" ::
  (List.range (total + 1)).map progressWrite ++
  [Ev.printLn "\n✅ Processing complete!"]

/-! ## Carriage-return countdown (`demo_carriage_return`) -/

/-- The writes of the countdown loop `for i in range(10, 0, -1)`. -/
def countdownWrites : List Ev :=
  (rangeDown 10 0).map (fun i => Ev.write ("\rCountdown: " ++ toString i))

/-- Trace of `demo_carriage_return`. -/
def demo_carriage_return : List Ev :=
  Ev.printLn "\n=== Carriage Return Demo ===" ::
  Ev.printLn "Counting down with carriage return:" ::
  countdownWrites ++ [Ev.write "\rCountdown: Blast off!     \n"]

/-- Does this event write a string beginning with a carriage return? -/
def startsWithCR : Ev → Bool
  | Ev.write s => s.data.head? = some '\r'
  | _ => false

/-! ## Loading animation (`demo_loading_animation`) -/

def animation_chars : List String :=
  ["⠋", "⠙", "⠹", "⠸", "⠼", "⠴", "⠦", "⠧", "⠇", "⠏"]

/-- The write of iteration `i`: `char = animation_chars[i % len(animation_chars)]`. -/
def loadingWrite (i : Nat) : Ev :=
  Ev.write ("\r" ++ animation_chars.getD (i % animation_chars.length) "" ++
    " Loading... " ++ toString (i + 1) ++ "/20")

/-- Trace of `demo_loading_animation`. -/
def demo_loading_animation : List Ev :=
  Ev.printLn "\n=== Loading Animation Demo ===" ::
  Ev.printLn "Loading with animation:" ::
  (List.range 20).map loadingWrite ++ [Ev.write "\r✅ Loading complete!     \n"]

/-! ## Terminal overwrite widths (for the line-clearing property)

A string written to the terminal paints columns starting from wherever a
carriage return (or start) put the cursor; its paint width is the largest
number of columns any of its `\r`-separated segments covers (a trailing
newline paints nothing).  The strings of this program contain `\r` only at
segment starts and `\n` only at the end, so this captures exactly how many
columns of a line each write covers. -/

def paintWidthAux : List Char → Nat → Nat → Nat
  | [], cur, best => max cur best
  | c :: cs, cur, best =>
    if c = '\r' then paintWidthAux cs 0 (max cur best)
    else if c = '\n' then paintWidthAux cs 0 (max cur best)
    else paintWidthAux cs (cur + 1) best

/-- Number of terminal columns (from column 0) that writing `s` paints. -/
def paintWidth (s : String) : Nat := paintWidthAux s.data 0 0

/-- Paint width of an event: `print` adds only a trailing newline, and
`clear_line` writes `clear_line_str`. -/
def evPaintWidth : Ev → Nat
  | Ev.write s => paintWidth s
  | Ev.printLn s => paintWidth s
  | Ev.clearLine => paintWidth clear_line_str
  | _ => 0

/-! ## Advanced loading (`demo_advanced_loading`) -/

/-- The `animations` dict of the source, in insertion order. -/
def animations : List (String × List String) :=
  [("dots", ["⠋", "⠙", "⠹", "⠸", "⠼", "⠴", "⠦", "⠧", "⠇", "⠏"]),
   ("spinner", ["|", "/", "-", "\\"]),
   ("bars", ["▌", "▀", "▐", "▄"]),
   ("circles", ["◐", "◓", "◑", "◒"])]

/-- Python `str.title()` restricted to the single lowercase words used as
style names here: capitalise the first character. -/
def pyTitle (s : String) : String :=
  match s.data with
  | [] => ""
  | c :: cs => String.mk (c.toUpper :: cs)

/-- The write of iteration `i` for one style: `char = chars[i % len(chars)]`. -/
def advWrite (style : String) (chars : List String) (i : Nat) : Ev :=
  Ev.write ("\r" ++ chars.getD (i % chars.length) "" ++ " " ++ style ++ " loading...")

/-- The per-style completion write. -/
def advFinal (style : String) : Ev :=
  Ev.write ("\r✅ " ++ pyTitle style ++ " complete!     \n")

/-- The trace of one style's inner loop. -/
def advStyleTrace (style : String) (chars : List String) : List Ev :=
  Ev.printLn ("\n" ++ pyTitle style ++ " animation:") ::
  (List.range 10).map (advWrite style chars) ++ [advFinal style]

/-- Trace of `demo_advanced_loading`. -/
def demo_advanced_loading : List Ev :=
  Ev.printLn "\n=== Advanced Loading Demo ===" ::
  (animations.map (fun p => advStyleTrace p.1 p.2)).flatten

/-! ## Backspace demo (`demo_backspace`) -/

/-- The hard-coded message of the source. -/
def message : String := "Hello, World!"

/-- Typing phase: one single-character write per character of the message. -/
def typingWrites (msg : List Char) : List Ev :=
  msg.map (fun c => Ev.write (String.mk [c]))

/-- Erasing phase: one `"\x08 \x08"` write per `for i in range(len(message), 0, -1)`
iteration. -/
def eraseWrites (msg : List Char) : List Ev :=
  (rangeDown msg.length 0).map (fun _ => Ev.write "\x08 \x08")

/-- Trace of the body of `demo_backspace`, generalised over the message the
loops consume (the source fixes `message = "Hello, World!"`). -/
def demo_backspace_with (msg : List Char) : List Ev :=
  Ev.printLn "\n=== Backspace Demo ===" ::
  Ev.printLn "Typing effect:" ::
  typingWrites msg ++
  [Ev.printLn "\n", Ev.printLn "Deleting effect:"] ++
  eraseWrites msg ++
  [Ev.printLn "Done!"]

/-- Trace of `demo_backspace` as written. -/
def demo_backspace : List Ev := demo_backspace_with message.data

/-! ## Threaded spinner (`demo_threaded_animation`)

The background thread runs `animate`: `while not stop_event.is_set():`
write a frame, advance `i = (i + 1) % len(chars)`, sleep.  The embedding
abstracts the scheduler as the sequence of values the thread observes when
it reads the stop event: `flag t` is the value of `stop_event.is_set()` at
the thread's `t`-th check.  `threading.Event` is one-shot monotone, so once
the main flow calls `set()` every later read yields `true`.  Fuel bounds
the number of loop iterations modelled; the loop having exited within fuel
is exactly the condition under which `join()` returns. -/

def spinner_chars : List String := ["|", "/", "-", "\\"]

/-- The counter recurrence of `animate`: `i` starts at `0` and each
iteration executes `i = (i + 1) % len(chars)`. -/
def animateCounter : Nat → Nat
  | 0 => 0
  | n + 1 => (animateCounter n + 1) % spinner_chars.length

/-- The `animate` loop: at check `t` with counter `i`, stop if the event
reads set, else write frame `chars[i]` and continue.  Returns the writes
performed and whether the loop exited within the given fuel. -/
def animateFrom (flag : Nat → Bool) : Nat → Nat → Nat → List Ev × Bool
  | _, _, 0 => ([], false)
  | t, i, f + 1 =>
    if flag t then ([], true)
    else
      let rest := animateFrom flag (t + 1) ((i + 1) % spinner_chars.length) f
      (Ev.write ("\r" ++ spinner_chars.getD i "" ++ " Working...") :: rest.1, rest.2)

/-- Trace of `demo_threaded_animation`: banner, start-of-work line, the
background thread's writes, the join, then `clear_line()` and the
completion print.  The thread's writes all precede `joined` because
`animation_thread` joins before the main flow continues; the second
component records whether the loop exited (join returned) within fuel. -/
def demo_threaded_animation (flag : Nat → Bool) (fuel : Nat) : List Ev × Bool :=
  let a := animateFrom flag 0 0 fuel
  (Ev.printLn "\n=== Threaded Animation Demo ===" ::
   Ev.printLn "Starting work..." ::
   a.1 ++ [Ev.joined, Ev.clearLine, Ev.printLn "✅ Work complete!"], a.2)

/-- The events strictly after the join returns. -/
def afterJoin (t : List Ev) : List Ev :=
  (t.dropWhile (fun e => e != Ev.joined)).drop 1

/-- Is this event a write on the output stream (the only kind of event the
background task emits)? -/
def isWrite : Ev → Bool
  | Ev.write _ => true
  | _ => false

/-! ## Error-handling demo (`demo_error_handling`) -/

/-- The progress write of iteration `i`: `f"\rProcessing step {i+1}/5..."`. -/
def riskyStep (i : Nat) : Ev :=
  Ev.write ("\rProcessing step " ++ toString (i + 1) ++ "/5...")

/-- The `try` body's loop over `range(5)`: each iteration writes its
progress line first, then `if i == 2: raise RuntimeError(...)`.  Returns
the events performed and the raised exception message, if any. -/
def riskyLoop : List Nat → List Ev × Option String
  | [] => ([], none)
  | i :: rest =>
    if i = 2 then ([riskyStep i], some "Simulated error during processing")
    else
      let p := riskyLoop rest
      (riskyStep i :: p.1, p.2)

/-- Trace and escaping exception of `demo_error_handling`: the
`except Exception` clause converts any exception raised in the body into a
`clear_line()` plus two prints, so nothing propagates (second component
`none`). -/
def demo_error_handling : List Ev × Option String :=
  let body := riskyLoop (List.range 5)
  (Ev.printLn "\n=== Error Handling Demo ===" ::
   Ev.printLn "Starting risky operation..." ::
   body.1 ++
   (match body.2 with
    | none => [Ev.write "\r✅ Operation completed successfully!\n"]
    | some e =>
      [Ev.clearLine, Ev.printLn ("❌ Error occurred: " ++ e),
       Ev.printLn "Console state cleaned up properly."]),
   none)

/-! ## Driver (`main`)

`main` iterates over the demo list; each call either returns normally,
raises `KeyboardInterrupt`, or raises some other exception.  The loop body
is `try: demo() except KeyboardInterrupt: print(...); break
except Exception as e: print(...); continue`. -/

/-- What invoking one demo does, as observed by the driver. -/
inductive Outcome where
  | ok
  | interrupt
  | err (msg : String)
  deriving DecidableEq, Repr

/-- Driver-level events: a demo invocation, an error report, or the
user-interrupt notice. -/
inductive DEv where
  | invoke (k : Nat)
  | report (k : Nat) (msg : String)
  | notice
  deriving DecidableEq, Repr

/-- The driver loop, carrying the index of the next demo: invoke the demo;
on `ok` continue, on `err` report and continue, on `interrupt` print the
notice and break. -/
def driverRunAux : Nat → List Outcome → List DEv
  | _, [] => []
  | k, o :: rest =>
    DEv.invoke k ::
    match o with
    | Outcome.ok => driverRunAux (k + 1) rest
    | Outcome.err m => DEv.report k m :: driverRunAux (k + 1) rest
    | Outcome.interrupt => [DEv.notice]

/-- The driver applied to the whole demo sequence. -/
def driverRun (demos : List Outcome) : List DEv := driverRunAux 0 demos

/-- The indices of the demos the driver actually invoked, in order. -/
def invokedIndices (t : List DEv) : List Nat :=
  t.filterMap (fun e => match e with | DEv.invoke k => some k | _ => none)

/-! ## Helper lemmas -/

theorem rangeDown_zero_length (n : Nat) : (rangeDown n 0).length = n := by
  induction n with
  | zero => rfl
  | succ k ih => simpa [rangeDown] using ih

theorem animateCounter_mod (k : Nat) : animateCounter k = k % spinner_chars.length := by
  induction k with
  | zero => rfl
  | succ n ih =>
    show (animateCounter n + 1) % spinner_chars.length = (n + 1) % spinner_chars.length
    rw [ih]
    show (n % 4 + 1) % 4 = (n + 1) % 4
    rw [Nat.mod_add_mod]

/-- Unfolding equation of one `animate` loop iteration. -/
theorem animateFrom_succ (flag : Nat → Bool) (t i f : Nat) :
    animateFrom flag t i (f + 1) =
      if flag t then ([], true)
      else
        (Ev.write ("\r" ++ spinner_chars.getD i "" ++ " Working...") ::
            (animateFrom flag (t + 1) ((i + 1) % spinner_chars.length) f).1,
          (animateFrom flag (t + 1) ((i + 1) % spinner_chars.length) f).2) := rfl

/-- The `j`-th frame written by the `animate` loop entered with counter
`i < 4` shows glyph `(i + j) % 4` of the frame set. -/
theorem animateFrom_getElem (flag : Nat → Bool) :
    ∀ fuel t i j, i < spinner_chars.length → j < (animateFrom flag t i fuel).1.length →
      (animateFrom flag t i fuel).1[j]? =
        some (Ev.write ("\r" ++ spinner_chars.getD ((i + j) % spinner_chars.length) "" ++
          " Working...")) := by
  intro fuel
  induction fuel with
  | zero => intro t i j _ hj; simp [animateFrom] at hj
  | succ f ih =>
    intro t i j hi hj
    by_cases hf : flag t
    · simp [animateFrom, hf] at hj
    · cases j with
      | zero =>
        simp [animateFrom, hf, Nat.mod_eq_of_lt hi]
      | succ j' =>
        have hj' : j' < (animateFrom flag (t + 1) ((i + 1) % spinner_chars.length) f).1.length := by
          simp [animateFrom, hf] at hj
          omega
        have := ih (t + 1) ((i + 1) % spinner_chars.length) j'
          (Nat.mod_lt _ (by decide)) hj'
        simp only [animateFrom, hf, if_neg, Bool.false_eq_true, not_false_iff]
        simp only [List.getElem?_cons_succ]
        rw [this]
        have : ((i + 1) % spinner_chars.length + j') % spinner_chars.length
            = (i + (j' + 1)) % spinner_chars.length := by
          rw [Nat.mod_add_mod]
          ring_nf
        rw [this]

/-- Once a stop-event read returns `true`, the `animate` loop exits within
the corresponding fuel (`threading.Event` is one-shot, so a set event keeps
reading `true`; any read index at which it is set witnesses termination). -/
theorem animateFrom_terminates (flag : Nat → Bool) :
    ∀ f t i, flag (t + f) = true → (animateFrom flag t i (f + 1)).2 = true := by
  intro f
  induction f with
  | zero =>
    intro t i h
    have h' : flag t = true := by simpa using h
    rw [animateFrom_succ, if_pos h']
  | succ f' ih =>
    intro t i h
    by_cases hf : flag t
    · rw [animateFrom_succ, if_pos hf]
    · rw [animateFrom_succ, if_neg hf]
      exact ih (t + 1) ((i + 1) % spinner_chars.length)
        (by rw [show t + 1 + f' = t + (f' + 1) by omega]; exact h)

/-- Every event the background task emits is a plain write (in particular
none of them is the join marker). -/
theorem animateFrom_writes (flag : Nat → Bool) :
    ∀ fuel t i, ∀ e ∈ (animateFrom flag t i fuel).1, (e != Ev.joined) = true := by
  intro fuel
  induction fuel with
  | zero => intro t i e he; simp [animateFrom] at he
  | succ f ih =>
    intro t i e he
    by_cases hf : flag t
    · rw [animateFrom_succ, if_pos hf] at he; simp at he
    · rw [animateFrom_succ, if_neg hf] at he
      rcases List.mem_cons.mp he with h | h
      · subst h; rfl
      · exact ih _ _ e h

theorem dropWhile_append_all {α : Type} (p : α → Bool) :
    ∀ l₁ l₂ : List α, (∀ x ∈ l₁, p x = true) →
      List.dropWhile p (l₁ ++ l₂) = List.dropWhile p l₂ := by
  intro l₁
  induction l₁ with
  | nil => intro l₂ _; rfl
  | cons a rest ih =>
    intro l₂ h
    have ha := h a (List.mem_cons_self a rest)
    simp only [List.cons_append, List.dropWhile_cons, ha, if_true]
    exact ih l₂ (fun x hx => h x (List.mem_cons_of_mem a hx))

/-- The events after the join of the threaded demo are exactly the
`clear_line()` and the completion print. -/
theorem threaded_afterJoin (flag : Nat → Bool) (fuel : Nat) :
    afterJoin (demo_threaded_animation flag fuel).1 =
      [Ev.clearLine, Ev.printLn "✅ Work complete!"] := by
  have hform : (demo_threaded_animation flag fuel).1 =
      (Ev.printLn "\n=== Threaded Animation Demo ===" ::
        Ev.printLn "Starting work..." :: (animateFrom flag 0 0 fuel).1) ++
        [Ev.joined, Ev.clearLine, Ev.printLn "✅ Work complete!"] := by
    simp [demo_threaded_animation]
  have hall : ∀ x ∈ (Ev.printLn "\n=== Threaded Animation Demo ===" ::
      Ev.printLn "Starting work..." :: (animateFrom flag 0 0 fuel).1),
      (x != Ev.joined) = true := by
    intro x hx
    rcases List.mem_cons.mp hx with h | hx2
    · subst h; rfl
    · rcases List.mem_cons.mp hx2 with h | hx3
      · subst h; rfl
      · exact animateFrom_writes flag fuel 0 0 x hx3
  unfold afterJoin
  rw [hform, dropWhile_append_all _ _ _ hall]
  rfl

theorem invoke_mem_iff (t : List DEv) (j : Nat) :
    DEv.invoke j ∈ t ↔ j ∈ invokedIndices t := by
  simp only [invokedIndices, List.mem_filterMap]
  constructor
  · intro h; exact ⟨DEv.invoke j, h, rfl⟩
  · rintro ⟨e, he, hf⟩
    cases e <;> simp at hf
    subst hf; exact he

/-- Driver loop with no interrupting demo: every demo is invoked, in
order, and every erring demo is reported. -/
theorem driverRunAux_no_interrupt :
    ∀ demos : List Outcome, ∀ k, (∀ o ∈ demos, o ≠ Outcome.interrupt) →
      invokedIndices (driverRunAux k demos) = List.range' k demos.length ∧
      ∀ j m, demos[j]? = some (Outcome.err m) → DEv.report (k + j) m ∈ driverRunAux k demos := by
  intro demos
  induction demos with
  | nil => intro k _; exact ⟨rfl, by intro j m h; simp at h⟩
  | cons o rest ih =>
    intro k h
    have ho := h o (List.mem_cons_self o rest)
    have hrest := fun x hx => h x (List.mem_cons_of_mem o hx)
    have ihk := ih (k + 1) hrest
    cases o with
    | ok =>
      constructor
      · show invokedIndices (DEv.invoke k :: driverRunAux (k + 1) rest) = _
        simp only [invokedIndices, List.filterMap_cons] at ihk ⊢
        rw [List.length_cons, List.range'_succ]
        exact congrArg (List.cons k) ihk.1
      · intro j m hj
        cases j with
        | zero => simp at hj
        | succ j' =>
          simp only [List.getElem?_cons_succ] at hj
          have := ihk.2 j' m hj
          show DEv.report (k + (j' + 1)) m ∈ DEv.invoke k :: driverRunAux (k + 1) rest
          rw [show k + (j' + 1) = (k + 1) + j' by omega]
          exact List.mem_cons_of_mem _ this
    | err msg =>
      constructor
      · show invokedIndices (DEv.invoke k :: DEv.report k msg :: driverRunAux (k + 1) rest) = _
        simp only [invokedIndices, List.filterMap_cons] at ihk ⊢
        rw [List.length_cons, List.range'_succ]
        exact congrArg (List.cons k) ihk.1
      · intro j m hj
        cases j with
        | zero =>
          simp only [List.getElem?_cons_zero, Option.some_inj, Outcome.err.injEq] at hj
          subst hj
          show DEv.report (k + 0) msg ∈ _
          rw [Nat.add_zero]
          exact List.mem_cons_of_mem _ (List.mem_cons_self _ _)
        | succ j' =>
          simp only [List.getElem?_cons_succ] at hj
          have := ihk.2 j' m hj
          show DEv.report (k + (j' + 1)) m ∈
            DEv.invoke k :: DEv.report k msg :: driverRunAux (k + 1) rest
          rw [show k + (j' + 1) = (k + 1) + j' by omega]
          exact List.mem_cons_of_mem _ (List.mem_cons_of_mem _ this)
    | interrupt => exact absurd rfl ho

/-- Driver loop with a first interrupting demo at position `idx`: the
invoked demos are exactly those up to and including `idx`, and the notice
is printed. -/
theorem driverRunAux_interrupt :
    ∀ demos : List Outcome, ∀ k idx, demos[idx]? = some Outcome.interrupt →
      (∀ j, j < idx → demos[j]? ≠ some Outcome.interrupt) →
      invokedIndices (driverRunAux k demos) = List.range' k (idx + 1) ∧
      DEv.notice ∈ driverRunAux k demos := by
  intro demos
  induction demos with
  | nil => intro k idx h _; simp at h
  | cons o rest ih =>
    intro k idx h hfirst
    cases idx with
    | zero =>
      simp only [List.getElem?_cons_zero, Option.some_inj] at h
      subst h
      exact ⟨rfl, by simp [driverRunAux, invokedIndices]⟩
    | succ idx' =>
      simp only [List.getElem?_cons_succ] at h
      have ho : o ≠ Outcome.interrupt := by
        intro heq
        exact hfirst 0 (Nat.succ_pos idx') (by simp [heq])
      have hfirst' : ∀ j, j < idx' → rest[j]? ≠ some Outcome.interrupt := by
        intro j hj
        have := hfirst (j + 1) (by omega)
        simpa using this
      have ihk := ih (k + 1) idx' h hfirst'
      cases o with
      | ok =>
        refine ⟨?_, List.mem_cons_of_mem _ ihk.2⟩
        show invokedIndices (DEv.invoke k :: driverRunAux (k + 1) rest) = _
        simp only [invokedIndices, List.filterMap_cons] at ihk ⊢
        rw [List.range'_succ]
        exact congrArg (List.cons k) ihk.1
      | err msg =>
        refine ⟨?_, List.mem_cons_of_mem _ (List.mem_cons_of_mem _ ihk.2)⟩
        show invokedIndices (DEv.invoke k :: DEv.report k msg :: driverRunAux (k + 1) rest) = _
        simp only [invokedIndices, List.filterMap_cons] at ihk ⊢
        rw [List.range'_succ]
        exact congrArg (List.cons k) ihk.1
      | interrupt => exact absurd rfl ho

/-! ## Claim theorems -/

/-- Claim C1: in the progress bar demo (`total = 50`, `bar_width = 30`), for
every `i` in `[0, total]` the filled width computed by the float expression
`int(bar_width * (i / total))` — and rendered as that many `█` glyphs —
equals `floor(bar_width * i / total)` exactly. -/
theorem progress_bar_filled_exact : ∀ i, i ≤ total →
    filled_width i = bar_width * i / total ∧ (bar i).data.count '█' = filled_width i := by
  decide

/-- Witness for C1 at `i = 29`. -/
theorem progress_bar_filled_exact_witness :
    29 ≤ total ∧
    (filled_width 29 = bar_width * 29 / total ∧ (bar 29).data.count '█' = filled_width 29) :=
  ⟨by decide, progress_bar_filled_exact 29 (by decide)⟩

/-- Claim C2: the error-handling demo emits its progress writes for
iterations 0 and 1, then (after the failing iteration's own write) a
line-clear, then the error message — in that order; it never emits progress
writes for iterations 3 or 4, and the exception does not propagate to the
caller. -/
theorem error_demo_flow :
    [riskyStep 0, riskyStep 1, Ev.clearLine,
      Ev.printLn "❌ Error occurred: Simulated error during processing"].Sublist
      demo_error_handling.1 ∧
    riskyStep 3 ∉ demo_error_handling.1 ∧
    riskyStep 4 ∉ demo_error_handling.1 ∧
    demo_error_handling.2 = none := by
  decide

/-- Claim C3: for the driver, (a) when no demo raises a user interrupt,
every demo is invoked in order and every demo raising another error gets an
error report while the sequence continues; (b) a demo raising a user
interrupt (the first one to do so) is followed by the notice and by no
further invocations. -/
theorem driver_error_isolation_and_interrupt (demos : List Outcome) :
    ((∀ o ∈ demos, o ≠ Outcome.interrupt) →
      invokedIndices (driverRun demos) = List.range demos.length ∧
      ∀ j m, demos[j]? = some (Outcome.err m) → DEv.report j m ∈ driverRun demos) ∧
    ∀ k, demos[k]? = some Outcome.interrupt →
      (∀ j, j < k → demos[j]? ≠ some Outcome.interrupt) →
      invokedIndices (driverRun demos) = List.range (k + 1) ∧
      DEv.notice ∈ driverRun demos ∧
      ∀ j, k < j → DEv.invoke j ∉ driverRun demos := by
  constructor
  · intro h
    have hmain := driverRunAux_no_interrupt demos 0 h
    refine ⟨by rw [List.range_eq_range']; exact hmain.1, ?_⟩
    intro j m hj
    have := hmain.2 j m hj
    simpa using this
  · intro k hk hfirst
    have hmain := driverRunAux_interrupt demos 0 k hk hfirst
    have hr : invokedIndices (driverRun demos) = List.range (k + 1) := by
      rw [List.range_eq_range']; exact hmain.1
    refine ⟨hr, hmain.2, ?_⟩
    intro j hj hmem
    have hmem2 : j ∈ invokedIndices (driverRun demos) := (invoke_mem_iff _ j).mp hmem
    rw [hr] at hmem2
    have := List.mem_range.mp hmem2
    omega

/-- Witness for C3: an erring middle demo in an interrupt-free sequence is
reported and the rest still runs; an interrupting middle demo stops the
sequence after the notice. -/
theorem driver_error_isolation_and_interrupt_witness :
    (invokedIndices (driverRun [Outcome.ok, Outcome.err "boom", Outcome.ok]) = List.range 3 ∧
      DEv.report 1 "boom" ∈ driverRun [Outcome.ok, Outcome.err "boom", Outcome.ok]) ∧
    (invokedIndices (driverRun [Outcome.ok, Outcome.interrupt, Outcome.ok]) = List.range 2 ∧
      DEv.notice ∈ driverRun [Outcome.ok, Outcome.interrupt, Outcome.ok] ∧
      DEv.invoke 2 ∉ driverRun [Outcome.ok, Outcome.interrupt, Outcome.ok]) := by
  have h1 := (driver_error_isolation_and_interrupt
    [Outcome.ok, Outcome.err "boom", Outcome.ok]).1 (by decide)
  have h2 := (driver_error_isolation_and_interrupt
    [Outcome.ok, Outcome.interrupt, Outcome.ok]).2 1 (by decide) (by decide)
  exact ⟨⟨h1.1, h1.2 1 "boom" (by decide)⟩, ⟨h2.1, h2.2.1, h2.2.2 2 (by decide)⟩⟩

/-- Claim C4: the countdown demo emits exactly the counter values
`10, 9, ..., 1`, each write beginning with a carriage return, followed by a
single completion write; no value is skipped or repeated. -/
theorem countdown_sequence :
    demo_carriage_return =
      [Ev.printLn "\n=== Carriage Return Demo ===",
       Ev.printLn "Counting down with carriage return:"] ++
      ([10, 9, 8, 7, 6, 5, 4, 3, 2, 1] : List Nat).map
        (fun i => Ev.write ("\rCountdown: " ++ toString i)) ++
      [Ev.write "\rCountdown: Blast off!     \n"] ∧
    (demo_carriage_return.filter isWrite).all startsWithCR = true := by
  decide

/-- Claim C5: in every spinner-style demo the glyph displayed at iteration
`i` is frame `i % frameCount` of that demo's frame set: the loading
animation (10 braille frames), each style of the advanced loading demo
(frame sets of lengths 10 and 4), and the threaded `animate` loop, whose
counter recurrence `i = (i + 1) % len(chars)` makes its `j`-th write show
frame `j % 4`. -/
theorem spinner_frame_mod :
    (∀ i, i < 20 → (demo_loading_animation.drop 2)[i]? =
      some (Ev.write ("\r" ++ animation_chars.getD (i % animation_chars.length) "" ++
        " Loading... " ++ toString (i + 1) ++ "/20"))) ∧
    (∀ p ∈ animations, ∀ i, i < 10 → ((advStyleTrace p.1 p.2).drop 1)[i]? =
      some (Ev.write ("\r" ++ p.2.getD (i % p.2.length) "" ++ " " ++ p.1 ++ " loading..."))) ∧
    (∀ k, animateCounter k = k % spinner_chars.length) ∧
    ∀ flag : Nat → Bool, ∀ fuel j, j < (animateFrom flag 0 0 fuel).1.length →
      (animateFrom flag 0 0 fuel).1[j]? =
        some (Ev.write ("\r" ++ spinner_chars.getD (j % spinner_chars.length) "" ++
          " Working...")) := by
  refine ⟨by decide, by decide, animateCounter_mod, ?_⟩
  intro flag fuel j hj
  have := animateFrom_getElem flag fuel 0 0 j (by decide) hj
  simpa using this

/-- Witness for C5: the loading demo at iteration 13, the `bars` style at
iteration 6, the threaded counter at pass 7, and the threaded loop's 4th
write under a stop event read as set from check 5 on. -/
theorem spinner_frame_mod_witness :
    (demo_loading_animation.drop 2)[13]? =
      some (Ev.write ("\r" ++ animation_chars.getD (13 % animation_chars.length) "" ++
        " Loading... " ++ toString (13 + 1) ++ "/20")) ∧
    ((advStyleTrace "bars" ["▌", "▀", "▐", "▄"]).drop 1)[6]? =
      some (Ev.write ("\r" ++ (["▌", "▀", "▐", "▄"] : List String).getD
        (6 % (["▌", "▀", "▐", "▄"] : List String).length) "" ++ " " ++ "bars" ++
        " loading...")) ∧
    animateCounter 7 = 7 % spinner_chars.length ∧
    (animateFrom (fun t => decide (5 ≤ t)) 0 0 9).1[3]? =
      some (Ev.write ("\r" ++ spinner_chars.getD (3 % spinner_chars.length) "" ++
        " Working...")) :=
  ⟨spinner_frame_mod.1 13 (by decide),
   spinner_frame_mod.2.1 ("bars", ["▌", "▀", "▐", "▄"]) (by decide) 6 (by decide),
   spinner_frame_mod.2.2.1 7,
   spinner_frame_mod.2.2.2 (fun t => decide (5 ≤ t)) 9 3 (by decide)⟩

/-- Claim C6: in each line-overwriting demo, the final overwrite (the padded
completion message, per-style completion, or the 80-space `clear_line`)
paints at least as many columns as any animation write before it in that
demo, so prior content is fully overwritten. -/
theorem clear_overwrites_previous :
    (∀ e ∈ countdownWrites,
      evPaintWidth e ≤ evPaintWidth (Ev.write "\rCountdown: Blast off!     \n")) ∧
    (∀ e ∈ (List.range 20).map loadingWrite,
      evPaintWidth e ≤ evPaintWidth (Ev.write "\r✅ Loading complete!     \n")) ∧
    (∀ p ∈ animations, ∀ e ∈ (List.range 10).map (advWrite p.1 p.2),
      evPaintWidth e ≤ evPaintWidth (advFinal p.1)) ∧
    ∀ e ∈ (riskyLoop (List.range 5)).1, evPaintWidth e ≤ evPaintWidth Ev.clearLine := by
  decide

/-- Witness for C6: the widest countdown line, a loading frame, a `circles`
frame, and an error-demo progress line, against their final overwrites. -/
theorem clear_overwrites_previous_witness :
    evPaintWidth (Ev.write "\rCountdown: 10") ≤
      evPaintWidth (Ev.write "\rCountdown: Blast off!     \n") ∧
    evPaintWidth (loadingWrite 9) ≤ evPaintWidth (Ev.write "\r✅ Loading complete!     \n") ∧
    evPaintWidth (advWrite "circles" ["◐", "◓", "◑", "◒"] 3) ≤ evPaintWidth (advFinal "circles") ∧
    evPaintWidth (riskyStep 2) ≤ evPaintWidth Ev.clearLine :=
  ⟨clear_overwrites_previous.1 (Ev.write "\rCountdown: 10") (by decide),
   clear_overwrites_previous.2.1 (loadingWrite 9) (by decide),
   clear_overwrites_previous.2.2.1 ("circles", ["◐", "◓", "◑", "◒"]) (by decide)
     (advWrite "circles" ["◐", "◓", "◑", "◒"] 3) (by decide),
   clear_overwrites_previous.2.2.2 (riskyStep 2) (by decide)⟩

/-- Claim C7: the backspace demo run with message `"Hi!"` performs exactly
3 single-character typing writes (`H`, `i`, `!` in order) and then exactly
3 writes of the backspace-space-backspace sequence; in general both counts
equal the message length. -/
theorem backspace_counts :
    demo_backspace_with "Hi!".data =
      [Ev.printLn "\n=== Backspace Demo ===", Ev.printLn "Typing effect:",
       Ev.write "H", Ev.write "i", Ev.write "!",
       Ev.printLn "\n", Ev.printLn "Deleting effect:",
       Ev.write "\x08 \x08", Ev.write "\x08 \x08", Ev.write "\x08 \x08",
       Ev.printLn "Done!"] ∧
    ∀ msg : List Char,
      (typingWrites msg).length = msg.length ∧ (eraseWrites msg).length = msg.length := by
  refine ⟨by decide, fun msg => ⟨by simp [typingWrites], ?_⟩⟩
  simp [eraseWrites, rangeDown_zero_length]

/-- Claim C8: for the progress bar, at every iteration the rendered filled
and empty widths sum to `bar_width` (the bar string always has exactly
`bar_width` glyphs), and the filled width is monotonically non-decreasing
in the iteration index. -/
theorem progress_bar_sum_monotone :
    (∀ i, i ≤ total → filled_width i + empty_width i = bar_width ∧ (bar i).length = bar_width) ∧
    ∀ j, j ≤ total → ∀ i, i ≤ j → filled_width i ≤ filled_width j := by
  constructor <;> decide

/-- Witness for C8 at `i = 20` and the pair `7 ≤ 20`. -/
theorem progress_bar_sum_monotone_witness :
    (filled_width 20 + empty_width 20 = bar_width ∧ (bar 20).length = bar_width) ∧
    filled_width 7 ≤ filled_width 20 :=
  ⟨progress_bar_sum_monotone.1 20 (by decide),
   progress_bar_sum_monotone.2 20 (by decide) 7 (by decide)⟩

/-- Claim C9: in the threaded spinner demo, once a read of the stop event
returns set (index `N`), the background loop terminates within the
corresponding fuel — so `join()` returns — and every event after the join
in the demo's trace is a non-write (the `clear_line` and the completion
print belong to the main flow); the background task emits no write after
the join. -/
theorem threaded_spinner_no_write_after_join (flag : Nat → Bool) (N : Nat)
    (h : flag N = true) :
    (demo_threaded_animation flag (N + 1)).2 = true ∧
    afterJoin (demo_threaded_animation flag (N + 1)).1 =
      [Ev.clearLine, Ev.printLn "✅ Work complete!"] ∧
    ∀ e ∈ afterJoin (demo_threaded_animation flag (N + 1)).1, isWrite e = false := by
  refine ⟨?_, threaded_afterJoin flag (N + 1), ?_⟩
  · have := animateFrom_terminates flag N 0 0 (by simpa using h)
    simpa [demo_threaded_animation] using this
  · rw [threaded_afterJoin flag (N + 1)]
    intro e he
    rcases List.mem_cons.mp he with h1 | h2
    · subst h1; rfl
    · rcases List.mem_cons.mp h2 with h1 | h3
      · subst h1; rfl
      · simp at h3

/-- Witness for C9 with the stop event already set at the first check. -/
theorem threaded_spinner_no_write_after_join_witness :
    (demo_threaded_animation (fun _ => true) 1).2 = true ∧
    afterJoin (demo_threaded_animation (fun _ => true) 1).1 =
      [Ev.clearLine, Ev.printLn "✅ Work complete!"] ∧
    ∀ e ∈ afterJoin (demo_threaded_animation (fun _ => true) 1).1, isWrite e = false :=
  threaded_spinner_no_write_after_join (fun _ => true) 0 rfl

/-- Claim C10: at the final iteration `i = total` the bar is completely
filled and the percentage reads exactly 100; at `i = 0` the bar is
completely empty and the percentage reads 0. -/
theorem progress_bar_endpoints :
    filled_width total = bar_width ∧ empty_width total = 0 ∧ percentage total = 100 ∧
    filled_width 0 = 0 ∧ empty_width 0 = bar_width ∧ percentage 0 = 0 := by
  decide

end StdoutExample
